import Mathlib

/-!
# Verification of the ezzy-logger specification against `src/Logger.js`

This development shallowly embeds the leveled console logger of
`src/Logger.js` (the current version of the repository; the node path,
`isBrowser = false`) and proves or refutes the spec's claims about it.

External npm dependencies that the logger calls into are not part of the
repository's sources; where a claim depends on them they are modelled from
the specification's words and marked as such in their doc comments:
`ezzy-config-setup` (the argument-shape resolver), `ezzy-typeof`
(the "true type" check) and `cli-color` (the color styling table).
`callsite` (stack introspection) and `Date.now()` are modelled as an
environment record supplying the strings they would produce.
-/

namespace EzzyLogger

/-- A JavaScript runtime value, as far as the logger inspects one.
Objects, arrays, errors and functions carry a `ref` identifier modelling
JavaScript reference identity (strict equality compares references, not
structure, for these). Functions are modelled by the value they return
when invoked with no arguments, which is the only way the logger calls
them (`config.message()`). -/
inductive JSVal where
  | null
  | undef
  | bool (b : Bool)
  | num (n : Int)
  | str (s : String)
  | arr (ref : Nat) (elems : List JSVal)
  | obj (ref : Nat) (fields : List (String × JSVal))
  | error (ref : Nat) (message : String) (stack : Option String)
  | fn (ref : Nat) (ret : JSVal)

/-- JavaScript truthiness of a value. -/
def truthy : JSVal → Bool
  | .null => false
  | JSVal.undef => false
  | .bool b => b
  | .num n => n != 0
  | .str s => s != ""
  | .arr _ _ => true
  | .obj _ _ => true
  | .error _ _ _ => true
  | .fn _ _ => true

/-- JavaScript `a || b`. -/
def jsOr (a b : JSVal) : JSVal := if truthy a then a else b

/-- JavaScript strict equality `===`: by value on primitives, by reference
on objects, arrays, errors and functions. -/
def strictEq : JSVal → JSVal → Bool
  | .null, .null => true
  | JSVal.undef, JSVal.undef => true
  | .bool a, .bool b => a == b
  | .num a, .num b => a == b
  | .str a, .str b => a == b
  | .arr r _, .arr r' _ => r == r'
  | .obj r _, .obj r' _ => r == r'
  | .error r _ _, .error r' _ _ => r == r'
  | .fn r _, .fn r' _ => r == r'
  | _, _ => false

/-- Modelled from the spec: the external `ezzy-typeof` package, the
"true type" check distinguishing arrays/objects/errors/functions from
primitives (spec sections 4.1 and 6, `assertType`). -/
def trueTypeOf : JSVal → String
  | .null => "null"
  | JSVal.undef => "undefined"
  | .bool _ => "boolean"
  | .num _ => "number"
  | .str _ => "string"
  | .arr _ _ => "array"
  | .obj _ _ => "object"
  | .error _ _ _ => "error"
  | .fn _ _ => "function"

mutual

/-- JavaScript string coercion, `String(v)`, for the values the logger
concatenates into messages. Plain objects coerce to "[object Object]",
arrays to their comma-joined elements, errors to "Error: message". -/
def jsToString : JSVal → String
  | .null => "null"
  | JSVal.undef => "undefined"
  | .bool b => if b then "true" else "false"
  | .num n => toString n
  | .str s => s
  | .arr _ es => jsToStringList es
  | .obj _ _ => "[object Object]"
  | .error _ m _ => "Error: " ++ m
  | .fn _ _ => "function () {}"

/-- Comma-join used by array string coercion. -/
def jsToStringList : List JSVal → String
  | [] => ""
  | [v] => jsToString v
  | v :: rest => jsToString v ++ "," ++ jsToStringList rest

end

mutual

/-- `JSON.stringify(v)` for the values the logger serializes (message
objects and `data` payloads). String escaping is not modelled; none of
the claims exercises it. Errors serialize to "{}" and functions and
undefined to "undefined" as in JavaScript. -/
def jsonStringify : JSVal → String
  | .null => "null"
  | JSVal.undef => "undefined"
  | .bool b => if b then "true" else "false"
  | .num n => toString n
  | .str s => "\"" ++ s ++ "\""
  | .arr _ es => "[" ++ jsonStringifyList es ++ "]"
  | .obj _ fs => "\x7b" ++ jsonStringifyFields fs ++ "\x7d"
  | .error _ _ _ => "\x7b\x7d"
  | .fn _ _ => "undefined"

/-- Comma-join of serialized array elements. -/
def jsonStringifyList : List JSVal → String
  | [] => ""
  | [v] => jsonStringify v
  | v :: rest => jsonStringify v ++ "," ++ jsonStringifyList rest

/-- Comma-join of serialized object fields. -/
def jsonStringifyFields : List (String × JSVal) → String
  | [] => ""
  | [(k, v)] => "\"" ++ k ++ "\":" ++ jsonStringify v
  | (k, v) :: rest => "\"" ++ k ++ "\":" ++ jsonStringify v ++ "," ++ jsonStringifyFields rest

end

/-- Property access `v.name` on a value known to be truthy (so it cannot
be null or undefined, the only values whose property access throws).
Missing properties give `undefined`, as in JavaScript. -/
def getPropSafe (v : JSVal) (name : String) : JSVal :=
  match v with
  | .obj _ fs =>
    match fs.find? (fun f => f.1 == name) with
    | some f => f.2
    | none => JSVal.undef
  | .error _ m stk =>
    if name == "message" then .str m
    else if name == "stack" then
      match stk with
      | some s => .str s
      | none => JSVal.undef
    else JSVal.undef
  | _ => JSVal.undef

/-- The level table of `src/Logger.js`:
`["error","warn","highlight","info","log","debug","deepDebug"]`. -/
def LOG_LEVELS : List String :=
  ["error", "warn", "highlight", "info", "log", "debug", "deepDebug"]

/-- JavaScript `Array.prototype.indexOf`: index of the first occurrence,
`-1` when absent. -/
def jsIndexOf (l : List String) (s : String) : Int :=
  match l.findIdx? (· == s) with
  | some i => (i : Int)
  | none => -1

def ERROR_LEVEL : Int := jsIndexOf LOG_LEVELS "error"
def WARN_LEVEL : Int := jsIndexOf LOG_LEVELS "warn"
def HIGHLIGHT_LEVEL : Int := jsIndexOf LOG_LEVELS "highlight"
def INFO_LEVEL : Int := jsIndexOf LOG_LEVELS "info"
def LOG_LEVEL : Int := jsIndexOf LOG_LEVELS "log"
def DEBUG_LEVEL : Int := jsIndexOf LOG_LEVELS "debug"
def DEEP_DEBUG_LEVEL : Int := jsIndexOf LOG_LEVELS "deepDebug"

/-- The mutable per-instance state of a `Logger`: `silent`, `_level`,
`_boring`, `_consoleLog`, `_groupTitle` and `isGroupped`
(constructor of `src/Logger.js`). -/
structure LoggerState where
  silent : Bool
  level : Int
  boring : Bool
  consoleLog : Bool
  groupTitle : String
  isGroupped : Bool
deriving DecidableEq, Repr

/-- `Logger.isDebugging`: `this._level >= DEBUG_LEVEL`. -/
def isDebugging (st : LoggerState) : Bool := st.level ≥ DEBUG_LEVEL

/-- Ambient values produced by external introspection: the string
`_getLastLine()` computes from `callsite()`, and the string `Date.now()`
renders to. Both are opaque inputs to the logger's formatting. -/
structure Env where
  lastLine : String
  now : String
deriving DecidableEq, Repr

/-- One console-sink invocation: the console method used and the single
string written (`Logger.console[methodName](text)`). -/
abbrev SinkCall := String × String

/-- The normalized configuration record `doLog` builds (the defaults
object passed to `configSetup` in `src/Logger.js`, lines 244-268).
All fields are JavaScript values, as in the source. The source field
`prefix` is named `prefixOn` here because `prefix` is a Lean keyword. -/
structure Config where
  title : JSVal
  message : JSVal
  msg : JSVal
  data : JSVal
  type : JSVal
  color : JSVal
  indent : JSVal
  prefixOn : JSVal
  suffix : JSVal
  marginTop : JSVal
  marginBottom : JSVal
  paddingBottom : JSVal
  paddingTop : JSVal
  borderTop : JSVal
  borderBottom : JSVal
  borderChar : JSVal
  ts : JSVal
  timestamp : JSVal
  muted : JSVal
  stack : JSVal
  error : JSVal
  basics : JSVal

/-- The defaults record of `doLog` (`src/Logger.js` lines 245-268),
parametrized by the per-method `debugColor` and by `this.isDebugging`
(the default of `suffix`). -/
def defaultConfig (debugColor : JSVal) (debugging : Bool) : Config where
  title := .str ""
  message := .str ""
  msg := .str ""
  data := .null
  type := .str ""
  color := debugColor
  indent := .num 0
  prefixOn := .bool true
  suffix := .bool debugging
  marginTop := .num 0
  marginBottom := .num 0
  paddingBottom := .num 0
  paddingTop := .num 0
  borderTop := .num 0
  borderBottom := .num 0
  borderChar := .str "-"
  ts := .bool false
  timestamp := .bool false
  muted := .bool false
  stack := .null
  error := .null
  basics := JSVal.undef

/-- Writes one named configuration field, used when a matched shape (or a
whole configuration object) merges values into the record. Unknown field
names are ignored. -/
def setField (c : Config) (name : String) (v : JSVal) : Config :=
  if name == "title" then { c with title := v }
  else if name == "message" then { c with message := v }
  else if name == "msg" then { c with msg := v }
  else if name == "data" then { c with data := v }
  else if name == "type" then { c with type := v }
  else if name == "color" then { c with color := v }
  else if name == "indent" then { c with indent := v }
  else if name == "prefix" then { c with prefixOn := v }
  else if name == "suffix" then { c with suffix := v }
  else if name == "marginTop" then { c with marginTop := v }
  else if name == "marginBottom" then { c with marginBottom := v }
  else if name == "paddingBottom" then { c with paddingBottom := v }
  else if name == "paddingTop" then { c with paddingTop := v }
  else if name == "borderTop" then { c with borderTop := v }
  else if name == "borderBottom" then { c with borderBottom := v }
  else if name == "borderChar" then { c with borderChar := v }
  else if name == "ts" then { c with ts := v }
  else if name == "timestamp" then { c with timestamp := v }
  else if name == "muted" then { c with muted := v }
  else if name == "stack" then { c with stack := v }
  else if name == "error" then { c with error := v }
  else if name == "basics" then { c with basics := v }
  else c

/-- One constraint of a declared shape: a field name and an expected-type
union such as `message:string|function` (spec section 4.1). -/
abbrev FieldSpec := String × String

/-- Whether one expected type of a union accepts a value: `*` accepts
anything, otherwise the value's true type must equal the expected name
(spec section 4.1: type compatibility uses the "true type" check). -/
def typeAccepts (expected : String) (v : JSVal) : Bool :=
  expected == "*" || trueTypeOf v == expected

/-- Splitting a character list at `'|'` separators, accumulating the
current fragment in reverse. -/
def splitBarChars : List Char → List Char → List String
  | [], acc => [String.mk acc.reverse]
  | c :: rest, acc =>
    if c = '|' then String.mk acc.reverse :: splitBarChars rest []
    else splitBarChars rest (c :: acc)

/-- The fragment of `String.prototype.split` the resolver needs: a
type-union string such as `string|function` split at `|`. -/
def splitUnion (s : String) : List String := splitBarChars s.data []

/-- Whether a union such as `string|function` accepts a value. -/
def unionAccepts (union : String) (v : JSVal) : Bool :=
  (splitUnion union).any (fun t => typeAccepts t v)

/-- Modelled from the spec: whether a declared shape matches an actual
argument list, "by count and by type compatibility" (spec section 4.1). -/
def shapeMatches (shape : List FieldSpec) (args : List JSVal) : Bool :=
  args.length == shape.length &&
    (shape.zip args).all (fun p => unionAccepts p.1.2 p.2)

/-- Merges the positional values of a matched shape into the record. -/
def applyShape (c : Config) (shape : List FieldSpec) (args : List JSVal) : Config :=
  (shape.zip args).foldl (fun acc p => setField acc p.1.1 p.2) c

/-- Modelled from the spec: the external `ezzy-config-setup` resolver
(spec section 4.1). Shapes are tried in declaration order and the first
one whose expected types all match wins; the special shape `this:object`
short-circuits positional matching and merges the object's own fields
directly; when no shape matches, the first argument is treated as the
`message` field. The spec gives no semantics for a non-array argument
value (which only the `fatal` spread quirk can produce), so such a value
resolves like an empty argument list. -/
def configSetup (c : Config) (args : List JSVal) (shapes : List (List FieldSpec)) : Config :=
  match shapes.find? (fun shape => shapeMatches shape args) with
  | some shape =>
    if shape == [("this", "object")] then
      match args with
      | [.obj _ fs] => fs.foldl (fun acc f => setField acc f.1 f.2) c
      | _ => c
    else applyShape c shape args
  | none =>
    match args.head? with
    | some v => setField c "message" v
    | none => c

/-- The view of `doLog`'s fourth parameter as a positional argument list:
severity methods pass the `arguments` object (an array here); `fatal`'s
spread quirk passes a single non-array value, treated as an empty list. -/
def asArgsList : JSVal → List JSVal
  | .arr _ es => es
  | _ => []

/-- The declared shape list of `doLog` (`src/Logger.js` lines 270-286),
in declaration order. -/
def doLogShapes : List (List FieldSpec) :=
  [ [("message", "error|string|function")]
  , [("title", "string"), ("message", "string|function")]
  , [("basics", "object"), ("message", "string|function")]
  , [("title", "string"), ("error", "error")]
  , [("title", "string"), ("data", "object|array|number|boolean")]
  , [("title", "string"), ("message", "string|function"), ("error", "error")]
  , [("title", "string"), ("message", "string|function"), ("data", "*")]
  , [("basics", "object"), ("title", "string"), ("message", "string|function")]
  , [("basics", "object"), ("message", "string"), ("data", "*")]
  , [("basics", "object"), ("title", "string"), ("message", "string|function"), ("error", "error")]
  , [("basics", "object"), ("title", "string"), ("message", "string|function"), ("data", "*")]
  , [("this", "object")]
  ]

/-- Modelled from the spec: the color names the external `cli-color`
package exposes as styling functions. -/
def clcColors : List String :=
  ["black", "red", "green", "yellow", "blue", "magenta", "cyan", "white",
   "blackBright", "redBright", "greenBright", "yellowBright", "blueBright",
   "magentaBright", "cyanBright", "whiteBright"]

/-- `Logger.color` (src lines 208-230, node path): boring mode or a falsy
color name return the message unstyled; otherwise `clc[color](msg)` is
applied. Styling is modelled as the identity on the text (the claims
observe only texts and invocation counts); an unknown color name is an
immediate error, matching `clc[color]` being undefined and the call
throwing (spec section 4.2 step 8: "unknown color names are a
configuration error surfaced immediately"). -/
def colorApply (st : LoggerState) (color : JSVal) (msg : String) : Except String String :=
  if st.boring then .ok msg
  else if !truthy color then .ok msg
  else match color with
       | .str name =>
         if clcColors.contains name then .ok msg
         else .error ("TypeError: clc." ++ name ++ " is not a function")
       | _ => .error "TypeError: clc[color] is not a function"

/-- The message-resolution steps of `doLog` (src lines 291-319): fall back
from `message` to `msg`, split an Error message into text and stack,
invoke a function message, serialize an object message, append the
explicit `error` field (preferring its stack), then append serialized
`data`. -/
def resolveMessage (c : Config) : Config :=
  let c := { c with message := jsOr c.message c.msg }
  let tto := trueTypeOf c.message
  let c :=
    if tto == "error" then
      { c with stack := getPropSafe c.message "stack",
               message := getPropSafe c.message "message" }
    else if tto == "function" then
      match c.message with
      | .fn _ ret => { c with message := ret }
      | _ => c
    else c
  let c :=
    if tto == "object" then { c with message := .str (jsonStringify c.message) }
    else c
  let c :=
    if truthy c.error then
      let c :=
        if truthy c.message then
          let appended := jsToString c.message ++ " [" ++
            jsToString (getPropSafe c.error "message") ++ "]"
          { c with message := JSVal.str appended }
        else { c with message := getPropSafe c.error "message" }
      if truthy (getPropSafe c.error "stack") then
        { c with message := getPropSafe c.error "stack" }
      else c
    else c
  if truthy c.data then
    { c with message := .str (jsToString c.message ++ " " ++ jsonStringify c.data) }
  else c

/-- The decoration steps of `doLog` (src lines 325-366): type tag, title
or group title, request tag from `basics`, `[LOGTYPE]` level tag, suffix
(literal or call-site line), timestamp, and muted/color styling. Returns
the final body text, or the error an unknown color name raises. -/
def decorate (st : LoggerState) (env : Env) (logType : String) (c : Config) : Except String String :=
  let typeStr := if strictEq c.type (.str "") then "" else "[" ++ jsToString c.type ++ "] "
  let m1 :=
    if truthy c.title then "[" ++ jsToString c.title ++ "] " ++ jsToString c.message
    else if st.groupTitle != "" then "[" ++ st.groupTitle ++ "] " ++ jsToString c.message
    else jsToString c.message
  let req := getPropSafe c.basics "request"
  let m2 :=
    if truthy c.basics && truthy req && truthy (getPropSafe req "loggerPrefix") then
      "[" ++ jsToString (getPropSafe req "loggerPrefix") ++ "] " ++ m1
    else m1
  let m3 := if truthy c.prefixOn then "[" ++ logType ++ "] " ++ typeStr ++ m2 else m2
  let sfxRes :=
    match c.suffix with
    | .str s => colorApply st (.str "blackBright") (" (" ++ s ++ ")")
    | v =>
      if truthy v then colorApply st (.str "blackBright") (" (" ++ env.lastLine ++ ")")
      else .ok ""
  match sfxRes with
  | .error e => .error e
  | .ok sfx =>
    let m4 := m3 ++ sfx
    let tsRes :=
      if truthy c.ts || truthy c.timestamp then
        colorApply st (.str "blackBright") (" > " ++ env.now)
      else .ok ""
    match tsRes with
    | .error e => .error e
    | .ok tsStr =>
      let m5 := m4 ++ tsStr
      if truthy c.muted then colorApply st (.str "blackBright") m5
      else if truthy c.color then colorApply st c.color m5
      else .ok m5

/-- The iteration count of `for (i = 0; i < x; i++)` over a margin,
padding or border field: a number iterates its value's worth of times,
`true` coerces to one iteration. Exotic string coercions are not
modelled; the fields hold numbers or booleans. -/
def jsLoopCount : JSVal → Nat
  | .num n => n.toNat
  | .bool true => 1
  | _ => 0

/-- `new Array(n).join(sep)`: the separator repeated `n - 1` times. -/
def joinRep (n : Nat) (sep : String) : String :=
  String.join (List.replicate (n - 1) sep)

/-- The indentation expression of `doLog` (src lines 394-398): falsy
indent gives none, a numeric indent `n` gives `Array(n).join(" ")`, any
other indent is used as a literal string. -/
def indentationOf (v : JSVal) : String :=
  if !truthy v then ""
  else match v with
       | .num n => joinRep n.toNat " "
       | other => jsToString other

/-- The emission steps of `doLog` (src lines 369-436, node path): blank
margin lines, top border, blank padding lines, the indented body line,
the captured stack (styled with the config color), bottom padding,
bottom border and bottom margin, all through `Logger.console[methodName]`. -/
def emitLines (st : LoggerState) (mn : String) (c : Config) (finalMsg : String) : Except String (List SinkCall) :=
  let borderRes : Except String (Option String) :=
    if truthy c.borderTop || truthy c.borderBottom then
      match colorApply st c.color
        (joinRep (Nat.max (jsLoopCount c.borderTop) (jsLoopCount c.borderBottom))
          (jsToString c.borderChar)) with
      | .error e => .error e
      | .ok b => .ok (some b)
    else .ok none
  match borderRes with
  | .error e => .error e
  | .ok border =>
    let borderLine : List SinkCall :=
      match border with
      | some b => [(mn, b)]
      | none => []
    let stackRes : Except String (List SinkCall) :=
      if truthy c.stack then
        match colorApply st c.color (jsToString c.stack) with
        | .error e => .error e
        | .ok s => .ok [(mn, s)]
      else .ok []
    match stackRes with
    | .error e => .error e
    | .ok stackLines =>
      .ok (List.replicate (jsLoopCount c.marginTop) (mn, "")
        ++ (if truthy c.borderTop then borderLine else [])
        ++ List.replicate (jsLoopCount c.paddingTop) (mn, "")
        ++ [(mn, indentationOf c.indent ++ finalMsg)]
        ++ stackLines
        ++ List.replicate (jsLoopCount c.paddingBottom) (mn, "")
        ++ (if truthy c.borderBottom then borderLine else [])
        ++ List.replicate (jsLoopCount c.marginBottom) (mn, ""))

/-- The configuration a `doLog` call resolves: defaults merged through
the shape resolver, then the message-resolution steps. -/
def resolveConfig (st : LoggerState) (debugColor : JSVal) (argsVal : JSVal) : Config :=
  resolveMessage (configSetup (defaultConfig debugColor (isDebugging st)) (asArgsList argsVal) doLogShapes)

/-- `Logger.doLog` (src lines 240-437, node path): resolve the
configuration, abort silently on an empty resolved message, decorate,
then emit. `_consoleLog` forces the `log` sink method. The result is the
list of sink invocations, or the error an unknown color name raises (in
the error case the partial output preceding the throw is discarded by
the model). -/
def doLog (st : LoggerState) (env : Env) (logType methodName : String) (debugColor : JSVal) (argsVal : JSVal) : Except String (List SinkCall) :=
  let mn := if st.consoleLog then "log" else methodName
  let c := resolveConfig st debugColor argsVal
  if strictEq c.message (.str "") then .ok []
  else
    match decorate st env logType c with
    | .error e => .error e
    | .ok finalMsg => emitLines st mn c finalMsg

/-- `Logger.highlight` (src lines 562-567): gate on silence and level,
then delegate to `doLog`. The result is this call's sink invocations;
the logger state is unchanged by severity methods. -/
def highlight (st : LoggerState) (env : Env) (args : List JSVal) : Except String (List SinkCall) :=
  if !st.silent && decide (st.level ≥ HIGHLIGHT_LEVEL) then
    doLog st env "HGH" "info" (.str "yellowBright") (.arr 0 args)
  else .ok []

/-- `Logger.debug` (src lines 573-578): gated on `isDebugging`. -/
def debug (st : LoggerState) (env : Env) (args : List JSVal) : Except String (List SinkCall) :=
  if !st.silent && isDebugging st then
    doLog st env "DBG" "debug" (.str "magenta") (.arr 0 args)
  else .ok []

/-- `Logger.deepDebug` (src lines 584-589). -/
def deepDebug (st : LoggerState) (env : Env) (args : List JSVal) : Except String (List SinkCall) :=
  if !st.silent && decide (st.level ≥ DEEP_DEBUG_LEVEL) then
    doLog st env "DBG" "debug" (.str "blackBright") (.arr 0 args)
  else .ok []

/-- `Logger.info` (src lines 595-600): a null debug color. -/
def info (st : LoggerState) (env : Env) (args : List JSVal) : Except String (List SinkCall) :=
  if !st.silent && decide (st.level ≥ INFO_LEVEL) then
    doLog st env "INF" "info" .null (.arr 0 args)
  else .ok []

/-- `Logger.log` (src lines 606-611). -/
def log (st : LoggerState) (env : Env) (args : List JSVal) : Except String (List SinkCall) :=
  if !st.silent && decide (st.level ≥ LOG_LEVEL) then
    doLog st env "LOG" "log" .null (.arr 0 args)
  else .ok []

/-- `Logger.warn` (src lines 617-622). -/
def warn (st : LoggerState) (env : Env) (args : List JSVal) : Except String (List SinkCall) :=
  if !st.silent && decide (st.level ≥ WARN_LEVEL) then
    doLog st env "WRN" "warn" (.str "yellow") (.arr 0 args)
  else .ok []

/-- `Logger.error` (src lines 628-633). -/
def error (st : LoggerState) (env : Env) (args : List JSVal) : Except String (List SinkCall) :=
  if !st.silent && decide (st.level ≥ ERROR_LEVEL) then
    doLog st env "ERR" "error" (.str "red") (.arr 0 args)
  else .ok []

/-- Dispatch from a severity-method name to its method, for statements
quantifying over the severity table. -/
def severityMethod (name : String) : LoggerState → Env → List JSVal → Except String (List SinkCall) :=
  if name == "highlight" then highlight
  else if name == "debug" then debug
  else if name == "deepDebug" then deepDebug
  else if name == "info" then info
  else if name == "log" then log
  else if name == "warn" then warn
  else if name == "error" then error
  else fun _ _ _ => .ok []

/-- `Logger.silence` (src lines 534-537). -/
def silence (st : LoggerState) : LoggerState := { st with silent := true }

/-- `Logger.talk` (src lines 544-547). -/
def talk (st : LoggerState) : LoggerState := { st with silent := false }

/-- The observable outcome of a call that can throw: the sink invocations
that happened before the throw, and the raised error as a
(constructor name, message) pair when one is raised. -/
structure CallOutcome where
  emitted : List SinkCall
  thrown : Option (String × String)
deriving DecidableEq, Repr

/-- The `message` property `new TypeError(arg)` ends up with: absent or
undefined arguments leave it empty, any other argument is
string-coerced. -/
def errMessageOf : Option JSVal → String
  | none => ""
  | some JSVal.undef => ""
  | some v => jsToString v

/-- `Logger.fatal` (src lines 639-644): log through `doLog` unless
silent, then unconditionally throw `new TypeError(args[0])`. The source
spreads the argument list into `doLog`'s positional parameters, so
`doLog`'s `args` parameter receives `args[0]` itself (a single non-array
value), not the argument list. -/
def fatal (st : LoggerState) (env : Env) (args : List JSVal) : CallOutcome :=
  let logRes :=
    if st.silent then Except.ok []
    else doLog st env "ERR" "error" (.str "red") (args.headD JSVal.undef)
  match logRes with
  | .ok l => { emitted := l, thrown := some ("TypeError", errMessageOf args.head?) }
  | .error e => { emitted := [], thrown := some ("Error", e) }

/-- JavaScript `s.substr(0, n)`: the first `n` characters. -/
def jsSubstrTake (s : String) (n : Nat) : String := ⟨s.data.take n⟩

/-- `Logger.groupEnd` (src lines 522-527). -/
def groupEnd (st : LoggerState) : LoggerState × List SinkCall :=
  ({ st with groupTitle := "", isGroupped := false }, [("groupEnd", "")])

/-- `Logger.groupStart` (src lines 502-516): close an open group, emit
`console.group`, store the (possibly truncated) group title when the
first argument is a string, and mark the logger grouped. -/
def groupStart (st : LoggerState) (args : List JSVal) : LoggerState × List SinkCall :=
  let closed := if st.isGroupped then groupEnd st else (st, [])
  let st := closed.1
  let st :=
    match args with
    | .str s :: _ =>
      { st with groupTitle := if s.length > 25 then jsSubstrTake s 22 ++ "..." else s }
    | _ => { st with groupTitle := "" }
  ({ st with isGroupped := true }, closed.2 ++ [("group", jsToStringList args)])

/-- `throttle`'s composite key, `method + (msg.message || msg)`
(src line 778): the method name followed by the message text. -/
def throttleKey (method : String) (msg : JSVal) : String :=
  method ++ jsToString (jsOr (getPropSafe msg "message") msg)

/-- An underlying emission the throttle produces: the immediate
pass-through of a call that found no pending entry, or the deferred
emission an armed timer fires, whose payload is tagged with a
`suffix: "Throttled - <call site>"` field (src lines 786-791). -/
inductive ThrottleEmit where
  | immediate (msg : String)
  | trailing (msg : String) (suffix : String)
deriving DecidableEq, Repr

/-- One `throttle(msg, w, method)` call at time `t` against the pending
entry for its key (src lines 777-801). A timer whose deadline already
passed fired beforehand, emitting its stored payload with the
"Throttled" suffix and deleting the entry. Then a still-pending entry is
cancelled (`clearTimeout`) while a missing entry means this call is
emitted immediately; either way a fresh timer for the full window is
armed, storing this call's payload. -/
def throttleStep (w : Int) (env : Env) (pending : Option (Int × String)) (t : Int) (m : String) :
    Option (Int × String) × List ThrottleEmit :=
  let fired :=
    match pending with
    | some (d, pm) =>
      if d ≤ t then (none, [ThrottleEmit.trailing pm ("Throttled - " ++ env.lastLine)])
      else (pending, ([] : List ThrottleEmit))
    | none => (none, [])
  match fired.1 with
  | some _ => (some (t + w, m), fired.2)
  | none => (some (t + w, m), fired.2 ++ [ThrottleEmit.immediate m])

/-- Runs a sequence of same-key `throttle` calls at their call times,
then lets whatever timer is still armed at the end fire. -/
def throttleRun (w : Int) (env : Env) :
    Option (Int × String) → List (Int × String) → List ThrottleEmit
  | pending, [] =>
    match pending with
    | some (_, pm) => [ThrottleEmit.trailing pm ("Throttled - " ++ env.lastLine)]
    | none => []
  | pending, (t, m) :: rest =>
    let s := throttleStep w env pending t m
    s.2 ++ throttleRun w env s.1 rest

/-- The emissions of a timed sequence of same-key `throttle` calls
starting from an empty throttle table. -/
def throttleSim (w : Int) (env : Env) (calls : List (Int × String)) : List ThrottleEmit :=
  throttleRun w env none calls

/-- A scheduled, not-yet-cancelled timeout of the throttle machinery:
its `setTimeout` handle and the key whose entry it serves. -/
structure Timer where
  id : Nat
  key : String
deriving DecidableEq, Repr

/-- The process-wide throttle machinery (src line 36 and lines 777-801):
a fresh-handle counter, the scheduled uncancelled timers, and the
`_throttle` table mapping each key to the timeout handle stored for it.
Payloads and emissions are elided; this model tracks timer ownership. -/
structure TimerSys where
  nextId : Nat
  active : List Timer
  table : List (String × Nat)
deriving DecidableEq, Repr

/-- First-match association lookup, JavaScript object property access on
the `_throttle` table. -/
def lookupTbl : List (String × Nat) → String → Option Nat
  | [], _ => none
  | e :: tl, key => if e.1 == key then some e.2 else lookupTbl tl key

/-- `_throttle[key]`. -/
def TimerSys.lookup (s : TimerSys) (key : String) : Option Nat :=
  lookupTbl s.table key

/-- The empty `_throttle` table the module starts with. -/
def initSys : TimerSys := { nextId := 0, active := [], table := [] }

/-- An event of the throttle machinery: a `throttle` call for a key, or
the scheduler firing the timer with a given handle. -/
inductive TEvent where
  | call (key : String)
  | fire (id : Nat)

/-- `_throttle[key] = id`. -/
def tableSet (tbl : List (String × Nat)) (key : String) (id : Nat) : List (String × Nat) :=
  (key, id) :: tbl.filter (fun e => e.1 != key)

/-- `delete _throttle[key]`. -/
def tableDel (tbl : List (String × Nat)) (key : String) : List (String × Nat) :=
  tbl.filter (fun e => e.1 != key)

/-- One event step (src lines 777-801). A call: when `_throttle[key]` is
set, `clearTimeout` removes that timer from the scheduled set, otherwise
the message is emitted immediately; in both cases a fresh timer is
scheduled and its handle stored in the table. A fire of a scheduled
timer: it emits the stored payload and deletes its own entry
(`delete _throttle[this.key]`); a cancelled handle never fires. -/
def stepEvent (s : TimerSys) : TEvent → TimerSys
  | .call key =>
    let s' :=
      match s.lookup key with
      | some tid => { s with active := s.active.filter (fun tm => tm.id != tid) }
      | none => s
    { nextId := s'.nextId + 1
      active := s'.active ++ [{ id := s'.nextId, key := key }]
      table := tableSet s'.table key s'.nextId }
  | .fire id =>
    match s.active.find? (fun tm => tm.id == id) with
    | some tm =>
      { s with active := s.active.filter (fun t => t.id != id),
               table := tableDel s.table tm.key }
    | none => s

/-- The machinery state after a sequence of events from startup. -/
def runEvents (es : List TEvent) : TimerSys :=
  es.foldl stepEvent initSys

/-- The number of scheduled uncancelled timers serving a key. -/
def pendingCount (s : TimerSys) (key : String) : Nat :=
  (s.active.filter (fun tm => tm.key == key)).length

/-- The inductive invariant of the throttle machinery: every scheduled
timer is the one its key's table entry owns, timer handles are below the
fresh counter, and no handle is scheduled twice. -/
def SysInv (s : TimerSys) : Prop :=
  (∀ tm ∈ s.active, s.lookup tm.key = some tm.id) ∧
  (∀ tm ∈ s.active, tm.id < s.nextId) ∧
  (s.active.map Timer.id).Nodup

/-- A concrete environment for witnesses: a call-site line and a clock
reading. -/
def sampleEnv : Env := ⟨"LoggerTest.js 39:12", "1234"⟩

/-- A concrete non-silent logger at level `log` (index 4). -/
def talkingLog : LoggerState :=
  { silent := false, level := 4, boring := false, consoleLog := false,
    groupTitle := "", isGroupped := false }

/-- The same logger silenced. -/
def silentLog : LoggerState :=
  { silent := true, level := 4, boring := false, consoleLog := false,
    groupTitle := "", isGroupped := false }

/-- C10: a single `throttle` call whose key has no pending entry, with no
further calls before the window elapses, produces exactly two emissions,
not one: the immediate pass-through, plus a duplicate trailing emission
of the same payload, tagged with the "Throttled" suffix, when the armed
timer fires. -/
theorem throttle_single_call_two_emissions (w t : Int) (m : String) (env : Env) :
    throttleSim w env [(t, m)] =
      [ThrottleEmit.immediate m,
       ThrottleEmit.trailing m ("Throttled - " ++ env.lastLine)] := rfl

lemma throttleRun_armed (w : Int) (env : Env) (base : Int) :
    ∀ (calls : List (Int × String)) (pm : String) (d : Int),
      base + w ≤ d → (∀ c ∈ calls, base ≤ c.1 ∧ c.1 < base + w) →
      throttleRun w env (some (d, pm)) calls =
        [ThrottleEmit.trailing (calls.foldl (fun _x c => c.2) pm)
          ("Throttled - " ++ env.lastLine)] := by
  intro calls
  induction calls with
  | nil => intro pm d _ _; rfl
  | cons c rest ih =>
    obtain ⟨t, m⟩ := c
    intro pm d hd hin
    obtain ⟨hc1, hc2⟩ := hin (t, m) (List.mem_cons_self _ _)
    have ht : ¬(d ≤ t) := by omega
    show (throttleStep w env (some (d, pm)) t m).2 ++
        throttleRun w env (throttleStep w env (some (d, pm)) t m).1 rest = _
    have hstep : throttleStep w env (some (d, pm)) t m = (some (t + w, m), []) := by
      simp [throttleStep, ht]
    rw [hstep]
    rw [ih m (t + w) (by omega) (fun c hc => hin c (List.mem_cons_of_mem _ hc))]
    rfl

lemma foldl_snd_getLast (l : List (Int × String)) (hne : l ≠ []) (a : String) :
    l.foldl (fun _x c => c.2) a = (l.getLast hne).2 := by
  induction l generalizing a with
  | nil => exact absurd rfl hne
  | cons c rest ih =>
    cases rest with
    | nil => rfl
    | cons c2 tl =>
      have hlast : (c :: c2 :: tl).getLast hne = (c2 :: tl).getLast (by simp) := by
        rw [List.getLast_cons]
      rw [List.foldl_cons, ih (by simp) c.2, hlast]

/-- C3: `N ≥ 2` rapid same-key `throttle` calls within one window produce
exactly two underlying emissions: the first call passes through
immediately, and after the window elapses with no further calls a single
trailing emission fires, carrying the payload of the last call and the
"Throttled" suffix. -/
theorem throttle_coalesce_two_emissions (w : Int) (env : Env) (t1 : Int) (m1 : String)
    (rest : List (Int × String)) (hne : rest ≠ [])
    (hin : ∀ c ∈ rest, t1 ≤ c.1 ∧ c.1 < t1 + w) :
    throttleSim w env ((t1, m1) :: rest) =
      [ThrottleEmit.immediate m1,
       ThrottleEmit.trailing (rest.getLast hne).2 ("Throttled - " ++ env.lastLine)] := by
  show (throttleStep w env none t1 m1).2 ++
      throttleRun w env (throttleStep w env none t1 m1).1 rest = _
  have hstep : throttleStep w env none t1 m1 =
      (some (t1 + w, m1), [ThrottleEmit.immediate m1]) := rfl
  rw [hstep, throttleRun_armed w env t1 rest m1 (t1 + w) (le_refl _) hin,
    foldl_snd_getLast rest hne m1]
  rfl

/-- Witness for C3 at a concrete input: two calls, "a" at time 0 and "b"
at time 1, inside a window of 1000. -/
theorem throttle_coalesce_two_emissions_witness :
    ([((1 : Int), "b")] ≠ ([] : List (Int × String))) ∧
    (∀ c ∈ [((1 : Int), "b")], (0 : Int) ≤ c.1 ∧ c.1 < 0 + 1000) ∧
    throttleSim 1000 sampleEnv [((0 : Int), "a"), (1, "b")] =
      [ThrottleEmit.immediate "a",
       ThrottleEmit.trailing "b" ("Throttled - " ++ sampleEnv.lastLine)] :=
  ⟨by decide, by decide,
    throttle_coalesce_two_emissions 1000 sampleEnv 0 "a" [(1, "b")]
      (by decide) (by decide)⟩

lemma lookupTbl_filter_ne (tbl : List (String × Nat)) (key k : String) (h : k ≠ key) :
    lookupTbl (tbl.filter (fun e => e.1 != key)) k = lookupTbl tbl k := by
  induction tbl with
  | nil => rfl
  | cons e tl ih =>
    rw [List.filter_cons]
    by_cases he : e.1 = key
    · have hdrop : (e.1 != key) = false := by simp [he]
      have hne : (e.1 == k) = false := by
        rw [he]; exact beq_eq_false_iff_ne.mpr (fun hk => h hk.symm)
      rw [hdrop]
      simp only [Bool.false_eq_true, if_false]
      rw [ih]
      show lookupTbl tl k = lookupTbl (e :: tl) k
      rw [lookupTbl, hne]
      simp
    · have hkeep : (e.1 != key) = true := by simp [bne_iff_ne, he]
      rw [hkeep]
      simp only [if_true]
      show lookupTbl (e :: tl.filter (fun e => e.1 != key)) k = lookupTbl (e :: tl) k
      rw [lookupTbl, lookupTbl, ih]

lemma lookupTbl_set_self (tbl : List (String × Nat)) (key : String) (id : Nat) :
    lookupTbl (tableSet tbl key id) key = some id := by
  simp [tableSet, lookupTbl]

lemma lookupTbl_set_ne (tbl : List (String × Nat)) (key : String) (id : Nat) (k : String)
    (h : k ≠ key) : lookupTbl (tableSet tbl key id) k = lookupTbl tbl k := by
  have hne : (key == k) = false := by
    simp only [beq_eq_false_iff_ne]; exact fun hk => h hk.symm
  rw [tableSet]
  show (if (key == k) = true then some id else _) = _
  rw [hne]
  simp only [Bool.false_eq_true, if_false]
  exact lookupTbl_filter_ne tbl key k h

lemma lookupTbl_del_ne (tbl : List (String × Nat)) (key k : String) (h : k ≠ key) :
    lookupTbl (tableDel tbl key) k = lookupTbl tbl k :=
  lookupTbl_filter_ne tbl key k h

lemma sysInv_step (s : TimerSys) (e : TEvent) (h : SysInv s) : SysInv (stepEvent s e) := by
  obtain ⟨h1, h2, h3⟩ := h
  cases e with
  | call key =>
    cases hl : s.lookup key with
    | some tid =>
      refine ⟨?_, ?_, ?_⟩
      · intro tm htm
        rw [stepEvent] at htm ⊢
        simp only [hl] at htm ⊢
        rcases List.mem_append.mp htm with hmem | hnew
        · obtain ⟨hmem', hid⟩ := List.mem_filter.mp hmem
          have hkey : tm.key ≠ key := by
            intro hk
            have hthis := h1 tm hmem'
            rw [hk, hl] at hthis
            have hinj : tid = tm.id := by injection hthis
            rw [← hinj] at hid
            simp at hid
          show lookupTbl (tableSet s.table key s.nextId) tm.key = some tm.id
          rw [lookupTbl_set_ne _ _ _ _ hkey]
          exact h1 tm hmem'
        · have : tm = { id := s.nextId, key := key } := by
            simpa using hnew
          subst this
          exact lookupTbl_set_self _ _ _
      · intro tm htm
        rw [stepEvent] at htm ⊢
        simp only [hl] at htm ⊢
        rcases List.mem_append.mp htm with hmem | hnew
        · exact Nat.lt_succ_of_lt (h2 tm (List.mem_filter.mp hmem).1)
        · have : tm = { id := s.nextId, key := key } := by simpa using hnew
          subst this
          exact Nat.lt_succ_self _
      · rw [stepEvent]
        simp only [hl, List.map_append, List.map_cons, List.map_nil]
        rw [List.nodup_append]
        refine ⟨(h3.sublist (List.Sublist.map _ (List.filter_sublist _))), List.nodup_singleton _, ?_⟩
        intro i hi hj
        simp only [List.mem_singleton] at hj
        subst hj
        obtain ⟨tm, htm, hid⟩ := List.mem_map.mp hi
        have := h2 tm (List.mem_filter.mp htm).1
        omega
    | none =>
      refine ⟨?_, ?_, ?_⟩
      · intro tm htm
        rw [stepEvent] at htm ⊢
        simp only [hl] at htm ⊢
        rcases List.mem_append.mp htm with hmem | hnew
        · have hkey : tm.key ≠ key := by
            intro hk
            have := h1 tm hmem
            rw [hk, hl] at this
            cases this
          show lookupTbl (tableSet s.table key s.nextId) tm.key = some tm.id
          rw [lookupTbl_set_ne _ _ _ _ hkey]
          exact h1 tm hmem
        · have : tm = { id := s.nextId, key := key } := by simpa using hnew
          subst this
          exact lookupTbl_set_self _ _ _
      · intro tm htm
        rw [stepEvent] at htm ⊢
        simp only [hl] at htm ⊢
        rcases List.mem_append.mp htm with hmem | hnew
        · exact Nat.lt_succ_of_lt (h2 tm hmem)
        · have : tm = { id := s.nextId, key := key } := by simpa using hnew
          subst this
          exact Nat.lt_succ_self _
      · rw [stepEvent]
        simp only [hl, List.map_append, List.map_cons, List.map_nil]
        rw [List.nodup_append]
        refine ⟨h3, List.nodup_singleton _, ?_⟩
        intro i hi hj
        simp only [List.mem_singleton] at hj
        subst hj
        obtain ⟨tm, htm, hid⟩ := List.mem_map.mp hi
        have := h2 tm htm
        omega
  | fire id =>
    cases hf : s.active.find? (fun tm => tm.id == id) with
    | some tm0 =>
      have htm0mem : tm0 ∈ s.active := List.mem_of_find?_eq_some hf
      have htm0id : tm0.id = id := by
        have := List.find?_some hf
        simpa using this
      refine ⟨?_, ?_, ?_⟩
      · intro tm htm
        rw [stepEvent] at htm ⊢
        simp only [hf] at htm ⊢
        obtain ⟨hmem', hid⟩ := List.mem_filter.mp htm
        have hkey : tm.key ≠ tm0.key := by
          intro hk
          have ha := h1 tm hmem'
          have hb := h1 tm0 htm0mem
          rw [hk] at ha
          rw [ha] at hb
          have : tm.id = tm0.id := by injection hb
          rw [htm0id] at this
          simp [this] at hid
        show lookupTbl (tableDel s.table tm0.key) tm.key = some tm.id
        rw [lookupTbl_del_ne _ _ _ hkey]
        exact h1 tm hmem'
      · intro tm htm
        rw [stepEvent] at htm ⊢
        simp only [hf] at htm ⊢
        exact h2 tm (List.mem_filter.mp htm).1
      · rw [stepEvent]
        simp only [hf]
        exact h3.sublist (List.Sublist.map _ (List.filter_sublist _))
    | none =>
      rw [stepEvent]
      simp only [hf]
      exact ⟨h1, h2, h3⟩

lemma sysInv_run (es : List TEvent) : ∀ s, SysInv s → SysInv (es.foldl stepEvent s) := by
  induction es with
  | nil => intro s h; exact h
  | cons e tl ih => intro s h; exact ih _ (sysInv_step s e h)

lemma filter_key_len_le_one (key : String) (l : List Timer)
    (hnd : (l.map Timer.id).Nodup) (i : Nat)
    (hall : ∀ tm ∈ l, tm.key = key → tm.id = i) :
    (l.filter (fun tm => tm.key == key)).length ≤ 1 := by
  induction l with
  | nil => simp
  | cons a tl ih =>
    rw [List.map_cons, List.nodup_cons] at hnd
    obtain ⟨hnd1, hnd2⟩ := hnd
    rw [List.filter_cons]
    by_cases hk : a.key = key
    · have hnil : tl.filter (fun tm => tm.key == key) = [] := by
        rw [List.filter_eq_nil_iff]
        intro tm htm hptm
        have htk : tm.key = key := by simpa using hptm
        have hti : tm.id = i := hall tm (List.mem_cons_of_mem a htm) htk
        have hai : a.id = i := hall a (List.mem_cons_self a tl) hk
        exact hnd1 (List.mem_map.mpr ⟨tm, htm, by rw [hti, hai]⟩)
      simp [hk, hnil]
    · have : (a.key == key) = false := by simpa using hk
      simp only [this, Bool.false_eq_true, if_false]
      exact ih hnd2 (fun tm htm hk2 => hall tm (List.mem_cons_of_mem a htm) hk2)

lemma count_le_one_of_inv (s : TimerSys) (h : SysInv s) (key : String) :
    pendingCount s key ≤ 1 := by
  obtain ⟨h1, _h2, h3⟩ := h
  rw [pendingCount]
  cases hl : s.lookup key with
  | some i =>
    refine filter_key_len_le_one key s.active h3 i ?_
    intro tm htm hk
    have := h1 tm htm
    rw [hk, hl] at this
    injection this with hinj
    exact hinj.symm
  | none =>
    refine filter_key_len_le_one key s.active h3 0 ?_
    intro tm htm hk
    have := h1 tm htm
    rw [hk, hl] at this
    cases this

/-- C4: after any sequence of throttle calls and timer firings from
startup, the throttle machinery holds at most one pending timer per key:
re-arming cancels the previous timer before scheduling a new one, and a
firing timer deletes its own entry. -/
theorem throttle_at_most_one_timer_per_key (es : List TEvent) (key : String) :
    pendingCount (runEvents es) key ≤ 1 := by
  refine count_le_one_of_inv _ (sysInv_run es initSys ?_) key
  refine ⟨?_, ?_, ?_⟩ <;> simp [initSys]

lemma groupStart_title_eq (st : LoggerState) (args : List JSVal) :
    (groupStart st args).1.groupTitle =
      match args with
      | JSVal.str s :: _ => if s.length > 25 then jsSubstrTake s 22 ++ "..." else s
      | _ => "" := by
  rcases args with _ | ⟨v, rest⟩
  · simp [groupStart, groupEnd]
  · cases v <;> simp [groupStart, groupEnd]

lemma jsSubstrTake_append_dots_length (s : String) :
    (jsSubstrTake s 22 ++ "...").length ≤ 25 := by
  rw [String.length_append, jsSubstrTake, String.length_mk, List.length_take]
  have h3 : ("..." : String).length = 3 := rfl
  rw [h3]
  have : min 22 s.data.length ≤ 22 := min_le_left _ _
  omega

/-- C9: `groupStart` stores a string first argument unchanged as the
group title when it has at most 25 characters and otherwise its first 22
characters followed by "...", so the stored title never exceeds 25
characters; a non-string or absent first argument resets the title to
the empty string. -/
theorem groupStart_title_truncation (st : LoggerState) (args : List JSVal) :
    ((groupStart st args).1.groupTitle.length ≤ 25) ∧
    (∀ s rest, args = JSVal.str s :: rest →
      (s.length ≤ 25 → (groupStart st args).1.groupTitle = s) ∧
      (25 < s.length → (groupStart st args).1.groupTitle = jsSubstrTake s 22 ++ "...")) ∧
    ((∀ s rest, args ≠ JSVal.str s :: rest) → (groupStart st args).1.groupTitle = "") := by
  have hchar := groupStart_title_eq st args
  refine ⟨?_, ?_, ?_⟩
  · rw [hchar]
    rcases args with _ | ⟨v, rest⟩
    · decide
    · cases v
      case str s =>
        show (if s.length > 25 then jsSubstrTake s 22 ++ "..." else s).length ≤ 25
        by_cases hlen : s.length > 25
        · rw [if_pos hlen]; exact jsSubstrTake_append_dots_length s
        · rw [if_neg hlen]; omega
      all_goals exact show ("" : String).length ≤ 25 by decide
  · intro s rest' heq
    subst heq
    rw [hchar]
    constructor
    · intro hle
      show (if s.length > 25 then jsSubstrTake s 22 ++ "..." else s) = s
      rw [if_neg (by omega)]
    · intro hgt
      show (if s.length > 25 then jsSubstrTake s 22 ++ "..." else s) =
        jsSubstrTake s 22 ++ "..."
      rw [if_pos (by omega)]
  · intro hno
    rw [hchar]
    rcases args with _ | ⟨v, rest'⟩
    · rfl
    · cases v
      case str s => exact absurd rfl (hno s rest')
      all_goals rfl

/-- Witness for C9 at concrete inputs: a 30-character title is truncated
to 25 characters; a short title is kept; a numeric argument resets. -/
theorem groupStart_title_truncation_witness :
    ((groupStart talkingLog [JSVal.str "abc"]).1.groupTitle.length ≤ 25) ∧
    (groupStart talkingLog [JSVal.str "abc"]).1.groupTitle = "abc" := by
  refine ⟨(groupStart_title_truncation talkingLog [JSVal.str "abc"]).1, ?_⟩
  exact (((groupStart_title_truncation talkingLog [JSVal.str "abc"]).2.1 "abc" []
    rfl).1 (by decide))

lemma doLog_of_empty_message (st : LoggerState) (env : Env) (lt mn : String)
    (dc argsVal : JSVal)
    (h : strictEq (resolveConfig st dc argsVal).message (JSVal.str "") = true) :
    doLog st env lt mn dc argsVal = .ok [] := by
  simp only [doLog, h, if_true]

/-- C5: when the resolved configuration's message is the empty string
after message normalization, error append and data append, `doLog`
returns without performing any sink invocation and without raising. -/
theorem doLog_empty_message_noop (st : LoggerState) (env : Env) (lt mn : String)
    (dc argsVal : JSVal)
    (h : strictEq (resolveConfig st dc argsVal).message (JSVal.str "") = true) :
    doLog st env lt mn dc argsVal = .ok [] :=
  doLog_of_empty_message st env lt mn dc argsVal h

/-- Witness for C5 at a concrete input: a call whose only argument is the
empty string resolves to an empty message and emits nothing. -/
theorem doLog_empty_message_noop_witness :
    strictEq (resolveConfig talkingLog JSVal.null
        (JSVal.arr 0 [JSVal.str ""])).message (JSVal.str "") = true ∧
    doLog talkingLog sampleEnv "LOG" "log" JSVal.null
        (JSVal.arr 0 [JSVal.str ""]) = .ok [] :=
  ⟨by decide,
    doLog_empty_message_noop talkingLog sampleEnv "LOG" "log" JSVal.null
      (JSVal.arr 0 [JSVal.str ""]) (by decide)⟩

lemma resolveConfig_message_of_args_nil (st : LoggerState) (dc v : JSVal)
    (hv : asArgsList v = []) :
    strictEq (resolveConfig st dc v).message (JSVal.str "") = true := by
  rw [resolveConfig, hv]
  rfl

/-- C2: `fatal(x)` raises a TypeError whose message equals `x`, for every
logger state including silent ones; the accompanying error-level log is
attempted only when the logger is not silent (the spread in
`this.doLog("ERR", "error", "red", ...args)` passes only `args[0]`
through as `doLog`'s argument value). -/
theorem fatal_always_raises (st : LoggerState) (env : Env) (x : String) (rest : List JSVal) :
    (fatal st env (JSVal.str x :: rest)).thrown = some ("TypeError", x) ∧
    (st.silent = true → (fatal st env (JSVal.str x :: rest)).emitted = []) := by
  have hdo : doLog st env "ERR" "error" (JSVal.str "red") (JSVal.str x) = .ok [] :=
    doLog_of_empty_message st env "ERR" "error" (JSVal.str "red") (JSVal.str x)
      (resolveConfig_message_of_args_nil st (JSVal.str "red") (JSVal.str x) rfl)
  have hhead : (JSVal.str x :: rest).headD JSVal.undef = JSVal.str x := rfl
  cases hs : st.silent
  · constructor
    · rw [fatal]
      simp only [hs, if_false, Bool.false_eq_true, hhead, hdo]
      rfl
    · intro hcontra
      cases hcontra
  · constructor
    · rw [fatal]
      simp only [hs, if_true]
      rfl
    · intro _
      rw [fatal]
      simp only [hs, if_true]

/-- Witness for C2 at a concrete input: the silenced sample logger still
raises `TypeError("hi")` and logs nothing. -/
theorem fatal_always_raises_witness :
    (fatal silentLog sampleEnv [JSVal.str "hi"]).thrown = some ("TypeError", "hi") ∧
    (fatal silentLog sampleEnv [JSVal.str "hi"]).emitted = [] :=
  ⟨(fatal_always_raises silentLog sampleEnv "hi" []).1,
    (fatal_always_raises silentLog sampleEnv "hi" []).2 rfl⟩

/-- C6 counterexample: for an already-silent logger, `silence()` then
`talk()` does not restore the prior emission behavior: before the pair
`log("hi")` emits nothing, after the pair the same call emits one line. -/
theorem silence_talk_counterexample :
    log silentLog sampleEnv [JSVal.str "hi"] = .ok [] ∧
    log (talk (silence silentLog)) sampleEnv [JSVal.str "hi"] =
      .ok [("log", "[LOG] hi")] ∧
    log silentLog sampleEnv [JSVal.str "hi"] ≠
      log (talk (silence silentLog)) sampleEnv [JSVal.str "hi"] := by
  refine ⟨rfl, rfl, ?_⟩
  intro h
  rw [show log silentLog sampleEnv [JSVal.str "hi"] =
      (.ok [] : Except String (List SinkCall)) from rfl,
    show log (talk (silence silentLog)) sampleEnv [JSVal.str "hi"] =
      (.ok [("log", "[LOG] hi")] : Except String (List SinkCall)) from rfl] at h
  simp at h

/-- C6 amended: `silence()` then `talk()` always leaves the logger not
silent; when the logger was not silent beforehand the pair restores the
exact prior state, hence identical emission behavior, but an initially
silent logger is un-silenced by the pair instead of being restored. -/
theorem silence_talk_amended (st : LoggerState) :
    (talk (silence st)).silent = false ∧
    (st.silent = false → talk (silence st) = st) := by
  refine ⟨rfl, ?_⟩
  intro h
  cases st
  simp_all [talk, silence]

/-- Witness for C6 amended at a concrete input: the non-silent sample
logger is restored exactly. -/
theorem silence_talk_amended_witness :
    (talk (silence talkingLog)).silent = false ∧
    talk (silence talkingLog) = talkingLog :=
  ⟨(silence_talk_amended talkingLog).1, (silence_talk_amended talkingLog).2 rfl⟩

/-- C8 counterexample: under the declaration-order first-match contract,
`("Message", {data:1})` matches the `title`+`data` shape, which is
declared before any shape binding both a message and a data payload, so
`message` keeps its default empty string rather than binding "Message"
as the claim states. -/
theorem resolver_message_data_counterexample :
    (configSetup (defaultConfig JSVal.null false)
        [JSVal.str "Message", JSVal.obj 1 [("data", JSVal.num 1)]] doLogShapes).message ≠
      JSVal.str "Message" ∧
    (configSetup (defaultConfig JSVal.null false)
        [JSVal.str "Message", JSVal.obj 1 [("data", JSVal.num 1)]] doLogShapes).message =
      JSVal.str "" ∧
    (configSetup (defaultConfig JSVal.null false)
        [JSVal.str "Message", JSVal.obj 1 [("data", JSVal.num 1)]] doLogShapes).title =
      JSVal.str "Message" ∧
    (configSetup (defaultConfig JSVal.null false)
        [JSVal.str "Message", JSVal.obj 1 [("data", JSVal.num 1)]] doLogShapes).data =
      JSVal.obj 1 [("data", JSVal.num 1)] := by
  refine ⟨?_, rfl, rfl, rfl⟩
  rw [show (configSetup (defaultConfig JSVal.null false)
      [JSVal.str "Message", JSVal.obj 1 [("data", JSVal.num 1)]] doLogShapes).message =
      JSVal.str "" from rfl]
  simp

/-- C8 amended: shapes are tried in declaration order and the first
shape whose expected types all match wins; `log("Title","Message")`
resolves title="Title" and message="Message"; `log("Message", {data:1})`
resolves title="Message" and data={data:1} (the title+data shape
precedes any shape binding message together with data); a single
configuration object matches the `this:object` shape, whose fields are
merged directly, bypassing positional matching. -/
theorem resolver_first_match_amended :
    (configSetup (defaultConfig JSVal.null false)
        [JSVal.str "Title", JSVal.str "Message"] doLogShapes).title = JSVal.str "Title" ∧
    (configSetup (defaultConfig JSVal.null false)
        [JSVal.str "Title", JSVal.str "Message"] doLogShapes).message = JSVal.str "Message" ∧
    (configSetup (defaultConfig JSVal.null false)
        [JSVal.str "Message", JSVal.obj 1 [("data", JSVal.num 1)]] doLogShapes).title =
      JSVal.str "Message" ∧
    (configSetup (defaultConfig JSVal.null false)
        [JSVal.str "Message", JSVal.obj 1 [("data", JSVal.num 1)]] doLogShapes).data =
      JSVal.obj 1 [("data", JSVal.num 1)] ∧
    (configSetup (defaultConfig JSVal.null false)
        [JSVal.obj 2 [("title", JSVal.str "T"), ("message", JSVal.str "M")]] doLogShapes).title =
      JSVal.str "T" ∧
    (configSetup (defaultConfig JSVal.null false)
        [JSVal.obj 2 [("title", JSVal.str "T"), ("message", JSVal.str "M")]] doLogShapes).message =
      JSVal.str "M" :=
  ⟨rfl, rfl, rfl, rfl, rfl, rfl⟩



lemma colorApply_null (st : LoggerState) (msg : String) :
    colorApply st JSVal.null msg = .ok msg := by
  by_cases hb : st.boring <;> simp [colorApply, hb, truthy]

lemma colorApply_valid (st : LoggerState) (name : String)
    (hname : clcColors.contains name = true) (hne : name ≠ "") (msg : String) :
    colorApply st (JSVal.str name) msg = .ok msg := by
  rw [colorApply]
  by_cases hb : st.boring
  · rw [if_pos hb]
  · rw [if_neg hb]
    have ht : (!truthy (JSVal.str name)) = false := by simp [truthy, hne]
    rw [ht]
    simp only [Bool.false_eq_true, if_false, hname, if_true]

lemma doLog_str_ok (st : LoggerState) (env : Env) (lt mn : String) (dc : JSVal) (m : String)
    (hm : m ≠ "")
    (hcolor : ∀ msg : String, colorApply st dc msg = .ok msg) :
    ∃ text, doLog st env lt mn dc (JSVal.arr 0 [JSVal.str m]) =
      .ok [(if st.consoleLog then "log" else mn, text)] := by
  have htr : truthy (JSVal.str m) = true := by simp [truthy, hm]
  have hr : resolveConfig st dc (JSVal.arr 0 [JSVal.str m]) =
      { defaultConfig dc (isDebugging st) with message := JSVal.str m } := by
    have hsetup : configSetup (defaultConfig dc (isDebugging st)) [JSVal.str m] doLogShapes =
        { defaultConfig dc (isDebugging st) with message := JSVal.str m } := rfl
    rw [resolveConfig]
    show resolveMessage (configSetup (defaultConfig dc (isDebugging st)) [JSVal.str m] doLogShapes) = _
    rw [hsetup]
    simp only [resolveMessage, jsOr, htr, if_true, trueTypeOf, defaultConfig]
    simp [truthy]
  have hne : strictEq (JSVal.str m) (JSVal.str "") = false := by simp [strictEq, hm]
  have hdec : ∃ out, decorate st env lt
      ({ defaultConfig dc (isDebugging st) with message := JSVal.str m }) = .ok out := by
    simp only [decorate, defaultConfig]
    simp only [strictEq, truthy, getPropSafe]
    have hbb := colorApply_valid st "blackBright" (by decide) (by decide)
    by_cases hdbg : isDebugging st = true <;>
      by_cases hgt : (st.groupTitle != "") = true <;>
        cases htc : truthy dc <;>
          simp [hdbg, hgt, htc, hbb, hcolor]
  have hemit : ∀ (mn' fmsg : String), emitLines st mn'
      ({ defaultConfig dc (isDebugging st) with message := JSVal.str m }) fmsg =
      .ok [(mn', fmsg)] := by
    intro mn' fmsg
    simp [emitLines, defaultConfig, truthy, jsLoopCount, indentationOf]
  obtain ⟨out, hout⟩ := hdec
  refine ⟨out, ?_⟩
  simp only [doLog]
  rw [hr]
  simp only [hne]
  simp only [Bool.false_eq_true, if_false]
  rw [hout]
  exact hemit (if st.consoleLog = true then "log" else mn) out



lemma gate_method_spec (st : LoggerState) (env : Env) (m : String) (hm : m ≠ "")
    (lt mn : String) (dc : JSVal)
    (hcolor : ∀ msg : String, colorApply st dc msg = .ok msg) (lvl : Int) :
    ∃ l, (if !st.silent && decide (st.level ≥ lvl) then
        doLog st env lt mn dc (JSVal.arr 0 [JSVal.str m]) else .ok []) = .ok l ∧
      (l.length = 1 ↔ (st.silent = false ∧ lvl ≤ st.level)) ∧
      (¬(st.silent = false ∧ lvl ≤ st.level) → l = []) := by
  by_cases hg : st.silent = false ∧ lvl ≤ st.level
  · have hb : (!st.silent && decide (st.level ≥ lvl)) = true := by
      obtain ⟨h1, h2⟩ := hg
      simp [h1, ge_iff_le, h2]
    obtain ⟨text, ht⟩ := doLog_str_ok st env lt mn dc m hm hcolor
    refine ⟨[(if st.consoleLog then "log" else mn, text)], ?_, ?_, ?_⟩
    · rw [hb]
      simp only [if_true]
      exact ht
    · simp [hg]
    · intro hc; exact absurd hg hc
  · have hb : (!st.silent && decide (st.level ≥ lvl)) = false := by
      cases hs : st.silent
      · have hnl : ¬(lvl ≤ st.level) := fun hl => hg ⟨hs, hl⟩
        simp only [Bool.not_false, Bool.true_and, decide_eq_false_iff_not, ge_iff_le]
        exact hnl
      · simp
    refine ⟨[], ?_, ?_, fun _ => rfl⟩
    · rw [hb]
      simp
    · simp [hg]

/-- C1: for each severity method in the table (highlight, debug,
deepDebug, info, log, warn, error) and every logger state, a call with a
non-empty plain string message produces exactly one sink invocation if
and only if the logger is not silent and its numeric level is at least
the index of the method's name in
`[error, warn, highlight, info, log, debug, deepDebug]`; otherwise the
call produces zero sink invocations. -/
theorem severity_one_emission_iff (st : LoggerState) (env : Env) (m : String) (hm : m ≠ "")
    (name : String)
    (hname : name ∈ ["highlight", "debug", "deepDebug", "info", "log", "warn", "error"]) :
    ∃ l, severityMethod name st env [JSVal.str m] = .ok l ∧
      (l.length = 1 ↔ (st.silent = false ∧ jsIndexOf LOG_LEVELS name ≤ st.level)) ∧
      (¬(st.silent = false ∧ jsIndexOf LOG_LEVELS name ≤ st.level) → l = []) := by
  fin_cases hname
  · exact gate_method_spec st env m hm "HGH" "info" (JSVal.str "yellowBright")
      (colorApply_valid st "yellowBright" (by decide) (by decide)) HIGHLIGHT_LEVEL
  · exact gate_method_spec st env m hm "DBG" "debug" (JSVal.str "magenta")
      (colorApply_valid st "magenta" (by decide) (by decide)) DEBUG_LEVEL
  · exact gate_method_spec st env m hm "DBG" "debug" (JSVal.str "blackBright")
      (colorApply_valid st "blackBright" (by decide) (by decide)) DEEP_DEBUG_LEVEL
  · exact gate_method_spec st env m hm "INF" "info" JSVal.null
      (colorApply_null st) INFO_LEVEL
  · exact gate_method_spec st env m hm "LOG" "log" JSVal.null
      (colorApply_null st) LOG_LEVEL
  · exact gate_method_spec st env m hm "WRN" "warn" (JSVal.str "yellow")
      (colorApply_valid st "yellow" (by decide) (by decide)) WARN_LEVEL
  · exact gate_method_spec st env m hm "ERR" "error" (JSVal.str "red")
      (colorApply_valid st "red" (by decide) (by decide)) ERROR_LEVEL



/-- Witness for C1 at a concrete input: the non-silent sample logger at
level 4 and the `log` method. -/
theorem severity_one_emission_iff_witness :
    ∃ l, severityMethod "log" talkingLog sampleEnv [JSVal.str "hi"] = .ok l ∧
      (l.length = 1 ↔ (talkingLog.silent = false ∧
        jsIndexOf LOG_LEVELS "log" ≤ talkingLog.level)) ∧
      (¬(talkingLog.silent = false ∧ jsIndexOf LOG_LEVELS "log" ≤ talkingLog.level) →
        l = []) :=
  severity_one_emission_iff talkingLog sampleEnv "hi" (by decide) "log" (by decide)

end EzzyLogger
